import Mathlib

/-!
Verification development for the toroh-backend document controller
(`src/controllers/documentController.js`).

Strings from the JavaScript source are modelled as `List Char` (one element
per UTF-16 code unit of the original; for the inputs considered here every
character is a Unicode scalar, and the JSON `\uXXXX` escape for a surrogate
code unit is mapped to the replacement behaviour of `Char.ofNat`).  Each Lean
definition is a direct transcription of the corresponding JavaScript
construct; comments cite the line of `documentController.js` being embedded.
-/

set_option maxRecDepth 4096

/-- Character constants, written via code points so the development never
depends on how brace and quote characters render inside literals. -/
def lbrace : Char := Char.ofNat 123

def rbrace : Char := Char.ofNat 125

def dquote : Char := Char.ofNat 34

def bslash : Char := Char.ofNat 92

/-- JavaScript regular-expression class `\s` (ECMAScript WhiteSpace together
with LineTerminator), restricted to the code points it names. -/
def isJsWs (c : Char) : Bool :=
  c = ' ' || c = '\t' || c = '\n' || c = '\r' ||
  c = Char.ofNat 0x0b || c = Char.ofNat 0x0c || c = Char.ofNat 0xa0 ||
  c = Char.ofNat 0x1680 ||
  (0x2000 ≤ c.toNat && c.toNat ≤ 0x200a) ||
  c = Char.ofNat 0x2028 || c = Char.ofNat 0x2029 ||
  c = Char.ofNat 0x202f || c = Char.ofNat 0x205f ||
  c = Char.ofNat 0x3000 || c = Char.ofNat 0xfeff

/-- ECMAScript LineTerminator set, which the regex metacharacter `.` does not
match (the flashcard regex has no `s` flag). -/
def isLineTerm (c : Char) : Bool :=
  c = '\n' || c = '\r' || c = Char.ofNat 0x2028 || c = Char.ofNat 0x2029

/-- JSON whitespace accepted by `JSON.parse` between tokens: space, tab,
line feed, carriage return only. -/
def isJsonWs (c : Char) : Bool :=
  c = ' ' || c = '\t' || c = '\n' || c = '\r'

/-- JavaScript `String.prototype.trim`, which strips the same set of
characters as `\s` from both ends. -/
def jsTrim (s : List Char) : List Char :=
  ((s.dropWhile isJsWs).reverse.dropWhile isJsWs).reverse

/-! ## The flashcard regular expression

`documentController.js` line 122 scans the accumulated model response with

  `/\{\s*"question"\s*:\s*"([^"\\]*(\\.[^"\\]*)*)"\s*,\s*"answer"\s*:\s*"([^"\\]*(\\.[^"\\]*)*)"\s*\}/g`

The sub-language `[^"\\]*(\\.[^"\\]*)*` followed by `"` is deterministic: a
backslash must begin an escape pair (whose second character may not be a line
terminator, since `.` does not match those), and an unescaped quote must end
the capture; all `\s*` loops abut characters disjoint from `\s`.  The
backtracking matcher therefore agrees with the recursive-descent functions
below at every starting position. -/

/-- One capture group `[^"\\]*(\\.[^"\\]*)*` followed by its closing quote.
Returns the captured text (escapes kept verbatim) and the input remaining
after the closing quote. -/
def scanContent : List Char → Option (List Char × List Char)
  | [] => none
  | c :: rest =>
    if c = dquote then some ([], rest)
    else if c = bslash then
      match rest with
      | [] => none
      | e :: rest2 =>
        if isLineTerm e then none
        else
          match scanContent rest2 with
          | none => none
          | some (ct, r) => some (c :: e :: ct, r)
    else
      match scanContent rest with
      | none => none
      | some (ct, r) => some (c :: ct, r)

/-- Consume one expected character. -/
def eatChar (c : Char) : List Char → Option (List Char)
  | [] => none
  | d :: rest => if d = c then some rest else none

/-- Consume an expected literal. -/
def eatLit : List Char → List Char → Option (List Char)
  | [], s => some s
  | _ :: _, [] => none
  | c :: cs, d :: rest => if d = c then eatLit cs rest else none

/-- Greedy `\s*`. -/
def eatWs (s : List Char) : List Char := s.dropWhile isJsWs

/-- One match of the flashcard regex: full matched span, the two captures,
in source order. -/
structure MatchRec where
  span : List Char
  qRaw : List Char
  aRaw : List Char
deriving DecidableEq, Repr

/-- The key literals `"question"` and `"answer"` as they occur in the regex. -/
def qKey : List Char := dquote :: "question".data ++ [dquote]

def aKey : List Char := dquote :: "answer".data ++ [dquote]

/-- Attempt the flashcard regex anchored at the head of `s`; on success
return the match together with the input remaining after the span. -/
def tryMatchAt (s : List Char) : Option (MatchRec × List Char) := do
  let r1 ← eatChar lbrace s
  let r2 ← eatLit qKey (eatWs r1)
  let r3 ← eatChar ':' (eatWs r2)
  let r4 ← eatChar dquote (eatWs r3)
  let (q, r5) ← scanContent r4
  let r6 ← eatChar ',' (eatWs r5)
  let r7 ← eatLit aKey (eatWs r6)
  let r8 ← eatChar ':' (eatWs r7)
  let r9 ← eatChar dquote (eatWs r8)
  let (a, r10) ← scanContent r9
  let r11 ← eatChar rbrace (eatWs r10)
  pure (⟨s.take (s.length - r11.length), q, a⟩, r11)

/-- `String.prototype.matchAll` with the `g` flag: scan left to right, try
the pattern at each position, and resume after the end of each match.  Every
successful match consumes at least the opening brace, so fuel equal to the
input length never runs out before the input is exhausted. -/
def matchAllAux : Nat → List Char → List MatchRec
  | 0, _ => []
  | _ + 1, [] => []
  | fuel + 1, c :: rest =>
    match tryMatchAt (c :: rest) with
    | some (m, r) => m :: matchAllAux fuel r
    | none => matchAllAux fuel rest

def matchAll (s : List Char) : List MatchRec :=
  matchAllAux s.length s

/-- `String.prototype.replaceAll(pat, '')` for a plain-string pattern:
non-overlapping occurrences are removed left to right, scanning resuming
after each removed occurrence.  Every pattern used by the controller starts
with a brace, hence is non-empty, so fuel equal to the input length again
suffices. -/
def replaceAllAux : Nat → List Char → List Char → List Char
  | 0, _, _ => []
  | _ + 1, _, [] => []
  | fuel + 1, pat, c :: rest =>
    if pat.isPrefixOf (c :: rest) then
      replaceAllAux fuel pat ((c :: rest).drop pat.length)
    else
      c :: replaceAllAux fuel pat rest

def replaceAll (s pat : List Char) : List Char :=
  replaceAllAux s.length pat s

/-! ## `JSON.parse` on a regex-matched span

Line 132 parses the matched span with `JSON.parse`.  Spans produced by the
regex are exactly of the form `{ ws "question" ws : ws "…" ws , ws "answer"
ws : ws "…" ws }`, so the parser below implements `JSON.parse` restricted to
that shape: inter-token whitespace must be JSON whitespace (a span whose `\s`
run used e.g. a vertical tab makes `JSON.parse` throw), string bodies must
use only the legal JSON escapes, and raw control characters are rejected.  A
span on which `JSON.parse` would produce an object under different keys
cannot arise from the regex, whose key literals are fixed. -/

/-- Hexadecimal digit value, as accepted in a JSON `\uXXXX` escape. -/
def hexVal (c : Char) : Option Nat :=
  if '0' ≤ c ∧ c ≤ '9' then some (c.toNat - '0'.toNat)
  else if 'a' ≤ c ∧ c ≤ 'f' then some (c.toNat - 'a'.toNat + 10)
  else if 'A' ≤ c ∧ c ≤ 'F' then some (c.toNat - 'A'.toNat + 10)
  else none

/-- Single-character JSON escapes. -/
def simpleEsc (c : Char) : Option Char :=
  if c = dquote then some dquote
  else if c = bslash then some bslash
  else if c = '/' then some '/'
  else if c = 'b' then some (Char.ofNat 8)
  else if c = 'f' then some (Char.ofNat 12)
  else if c = 'n' then some '\n'
  else if c = 'r' then some '\r'
  else if c = 't' then some '\t'
  else none

/-- Body of a JSON string literal, after its opening quote: returns the
decoded value and the input remaining after the closing quote.  Raw control
characters (code points below 0x20) make `JSON.parse` throw and are rejected
here as well. -/
def jsonStringAux : Nat → List Char → Option (List Char × List Char)
  | 0, _ => none
  | _ + 1, [] => none
  | fuel + 1, c :: rest =>
    if c = dquote then some ([], rest)
    else if c = bslash then
      match rest with
      | [] => none
      | e :: rest2 =>
        if e = 'u' then
          match rest2 with
          | h1 :: h2 :: h3 :: h4 :: rest3 =>
            match hexVal h1, hexVal h2, hexVal h3, hexVal h4 with
            | some a, some b, some cc, some d =>
              match jsonStringAux fuel rest3 with
              | none => none
              | some (v, r) =>
                some (Char.ofNat (a * 4096 + b * 256 + cc * 16 + d) :: v, r)
            | _, _, _, _ => none
          | _ => none
        else
          match simpleEsc e with
          | none => none
          | some ch =>
            match jsonStringAux fuel rest2 with
            | none => none
            | some (v, r) => some (ch :: v, r)
    else if c.toNat < 32 then none
    else
      match jsonStringAux fuel rest with
      | none => none
      | some (v, r) => some (c :: v, r)

/-- JSON whitespace skipping. -/
def eatJsonWs (s : List Char) : List Char := s.dropWhile isJsonWs

/-- A quoted JSON string literal. -/
def jsonString (s : List Char) : Option (List Char × List Char) :=
  match eatChar dquote s with
  | none => none
  | some r => jsonStringAux r.length r

/-- `JSON.parse` on a flashcard span followed by the member reads
`flashcard.question` / `flashcard.answer`: parses the two-member object and
returns the decoded field values.  `none` models a thrown `SyntaxError`
(caught at line 144 of the controller). -/
def jparseFlashcard (s : List Char) : Option (List Char × List Char) := do
  let r1 ← eatChar lbrace (eatJsonWs s)
  let (k1, r2) ← jsonString (eatJsonWs r1)
  let r3 ← eatChar ':' (eatJsonWs r2)
  let (v1, r4) ← jsonString (eatJsonWs r3)
  let r5 ← eatChar ',' (eatJsonWs r4)
  let (k2, r6) ← jsonString (eatJsonWs r5)
  let r7 ← eatChar ':' (eatJsonWs r6)
  let (v2, r8) ← jsonString (eatJsonWs r7)
  let r9 ← eatChar rbrace (eatJsonWs r8)
  if eatJsonWs r9 = [] ∧ k1 = "question".data ∧ k2 = "answer".data then
    pure (v1, v2)
  else none

/-! ## The incremental extraction loop

Lines 117–153 of `documentController.js`:

  let completeResponse = ``;
  let lastProcessedLength = 0;
  for await (const chunk of responseStream) {
    if (chunk.text) {
      completeResponse += chunk.text;
      const newContent = completeResponse.substring(lastProcessedLength);
      const matches = [...newContent.matchAll(flashcardRegex)];
      for (const match of matches) {
        const flashcardJson = match[0];
        completeResponse = completeResponse.replaceAll(flashcardJson + ',', '');
        const flashcard = JSON.parse(flashcardJson);          // may throw
        if (flashcard.question && flashcard.answer) { emit(flashcard); }
      }
    }
  }

`lastProcessedLength` is initialised to 0 and never reassigned anywhere in
the function; the embedding keeps the field and its (constant) use. -/

structure ExtState where
  completeResponse : List Char
  lastProcessedLength : Nat
  flashcards : List (List Char × List Char)
deriving DecidableEq, Repr

def initExtState : ExtState := ⟨[], 0, []⟩

/-- Body of `for (const match of matches)`: the span (with a trailing comma)
is scrubbed from `completeResponse` first; a `JSON.parse` failure is caught
and skips only the emission; emission requires both fields truthy, i.e.
non-empty. -/
def processMatch (st : ExtState) (m : MatchRec) : ExtState :=
  let cr := replaceAll st.completeResponse (m.span ++ [','])
  match jparseFlashcard m.span with
  | none => { st with completeResponse := cr }
  | some (q, a) =>
    if !q.isEmpty && !a.isEmpty then
      { completeResponse := cr
        lastProcessedLength := st.lastProcessedLength
        flashcards := st.flashcards ++ [(q, a)] }
    else { st with completeResponse := cr }

/-- Body of `for await (const chunk of responseStream)`: a falsy
`chunk.text` (absent or empty) is skipped entirely; otherwise the chunk is
appended and the suffix from `lastProcessedLength` is rescanned, the match
list being a snapshot taken before any `replaceAll` rewriting. -/
def processChunk (st : ExtState) (chunkText : List Char) : ExtState :=
  if chunkText = [] then st
  else
    let cr := st.completeResponse ++ chunkText
    let ms := matchAll (cr.drop st.lastProcessedLength)
    ms.foldl processMatch { st with completeResponse := cr }

/-- The whole extraction loop over a fragment sequence, from the per-request
initial state. -/
def runExtractor (chunks : List (List Char)) : ExtState :=
  chunks.foldl processChunk initExtState

/-- Records of the concatenated text that are syntactically well formed and
non-empty: the non-overlapping regex matches whose span `JSON.parse`s and
whose two fields are both non-empty.  This is the count `N` of the spec's
exactly-`N`-emissions property. -/
def validRecords (s : List Char) : List (List Char × List Char) :=
  (matchAll s).filterMap (fun m =>
    match jparseFlashcard m.span with
    | none => none
    | some (q, a) => if !q.isEmpty && !a.isEmpty then some (q, a) else none)

/-! ## The session store

`uploadDocument` (lines 7–42) stores `{ buffer, mimetype, originalname }`
under the key `Date.now().toString()` in the process-wide object
`global.uploadedFiles`, and schedules a `setTimeout` of 30 minutes that
deletes the entry only if it is still present.  `generateFlashcards` retires
a session with a bare `delete global.uploadedFiles[sessionId]`; no
`clearTimeout` appears anywhere in the repository, so removal leaves the
scheduled eviction pending.  The store is modelled as the insertion-ordered
key/value list of the object together with the multiset of pending eviction
timers. -/

structure FileData where
  buffer : List Char
  mimetype : List Char
  originalname : List Char
deriving DecidableEq, Repr

structure StoreState where
  entries : List (List Char × FileData)
  timers : List (List Char × Nat)
deriving DecidableEq, Repr

def emptyStore : StoreState := ⟨[], []⟩

/-- Object property lookup `global.uploadedFiles[id]`. -/
def lookupEntry (id : List Char) : List (List Char × FileData) → Option FileData
  | [] => none
  | (k, v) :: t => if k = id then some v else lookupEntry id t

/-- Object property assignment `global.uploadedFiles[id] = v`: an existing
key is overwritten in place, a new key is appended. -/
def setEntry (id : List Char) (v : FileData) :
    List (List Char × FileData) → List (List Char × FileData)
  | [] => [(id, v)]
  | (k, w) :: t => if k = id then (k, v) :: t else (k, w) :: setEntry id v t

/-- Object property deletion `delete global.uploadedFiles[id]` (keys are
unique, so filtering the key out is the deletion of its single occurrence;
deleting an absent key is a no-op). -/
def eraseEntry (id : List Char) (l : List (List Char × FileData)) :
    List (List Char × FileData) :=
  l.filter (fun e => !(e.1 = id : Bool))

/-- Session TTL, `30 * 60 * 1000` milliseconds (line 37). -/
def sessionTTL : Nat := 30 * 60 * 1000

/-- Outcome of the upload endpoint. -/
inductive UploadResult where
  | badRequest (message : List Char)
  | ok (sessionId : List Char)
deriving DecidableEq, Repr

def noFileMsg : List Char := "No file uploaded.".data

/-- `uploadDocument` (lines 7–42): reject a missing file; otherwise the
session id is `Date.now().toString()` (`now` is the clock reading in
milliseconds), the payload is stored under it — overwriting any session that
already holds that id — and an eviction timer for `now + TTL` is scheduled. -/
def uploadDocument (now : Nat) (file : Option FileData) (st : StoreState) :
    UploadResult × StoreState :=
  match file with
  | none => (.badRequest noFileMsg, st)
  | some f =>
    let sid := (Nat.repr now).data
    (.ok sid,
      { entries := setEntry sid f st.entries
        timers := st.timers ++ [(sid, now + sessionTTL)] })

/-- Session retirement as `generateFlashcards` performs it (line 161):
`delete global.uploadedFiles[sessionId]` and nothing else — in particular the
pending eviction timer is left untouched. -/
def removeSession (id : List Char) (st : StoreState) : StoreState :=
  { entries := eraseEntry id st.entries, timers := st.timers }

/-- A scheduled eviction firing (lines 32–37): the fired timer leaves the
pending set, and the callback deletes the entry only if it is still present
(`if (global.uploadedFiles && global.uploadedFiles[sessionId])`). -/
def fireEviction (id : List Char) (fireTime : Nat) (st : StoreState) : StoreState :=
  { entries :=
      match lookupEntry id st.entries with
      | some _ => eraseEntry id st.entries
      | none => st.entries
    timers := st.timers.eraseP (fun t => t.1 = id && t.2 = fireTime) }

/-! ## The generation orchestrator

`generateFlashcards` (lines 44–185) is modelled as a function from the
request inputs and the two collaborator boundaries to the ordered trace of
actions it performs on the response and on the store.  A thrown JavaScript
error is modelled by its observable attributes: whether
`error.response.promptFeedback` is present, and `error.message`. -/

structure JsError where
  hasPromptFeedback : Bool
  message : List Char
deriving DecidableEq, Repr

/-- How the fragment stream ends: normal exhaustion of the `for await`
loop, or a raised error. -/
inductive GenTerm where
  | ok
  | raised (e : JsError)
deriving DecidableEq, Repr

/-- The generation collaborator's behaviour for one request: the text
fragments the `for await` loop receives, and whether the stream then ends
normally or raises (`generateContentStream` itself throwing is the case
`chunks = []` with a raised terminator). -/
structure GenOutcome where
  chunks : List (List Char)
  term : GenTerm
deriving DecidableEq, Repr

inductive StreamEvent where
  | connected
  | flashcard (question answer : List Char)
  | complete
  | error (message : List Char)
deriving DecidableEq, Repr

/-- One observable action of the handler, in execution order. -/
inductive ResAction where
  | statusJson (code : Nat) (message : List Char)
  | sseHead
  | event (e : StreamEvent)
  | removeAct (sessionId : List Char)
  | endResponse
deriving DecidableEq, Repr

def invalidSessionMsg : List Char := "Invalid or expired session ID.".data

def unsupportedMsg : List Char := "Unsupported file type for text extraction.".data

def emptyTextMsg : List Char :=
  "Could not extract text from the document or the document is empty.".data

def promptBlockedMsg : List Char :=
  "AI generation failed. The prompt may have been blocked.".data

def failedGenerateMsg : List Char := "Failed to generate flashcards.".data

def invalidJsonMsg : List Char :=
  "Error processing AI response. The format was not valid JSON.".data

def pdfMime : List Char := "application/pdf".data

def docxMime : List Char :=
  "application/vnd.openxmlformats-officedocument.wordprocessingml.document".data

/-- The message chosen by the catch block at lines 171–180, depending on
whether the thrown error carries `response.promptFeedback`. -/
def catchMsg (e : JsError) : List Char :=
  if e.hasPromptFeedback then promptBlockedMsg else failedGenerateMsg

/-- The catch block at lines 171–180: the error is written as a terminal
`error` event followed by `res.end()`; no HTTP status line is emitted by
this block. -/
def catchTrace (e : JsError) : List ResAction :=
  [.event (.error (catchMsg e)), .endResponse]

/-- `ResAction.event` wrapper for an emitted record. -/
def fcEvent (r : List Char × List Char) : ResAction :=
  .event (.flashcard r.1 r.2)

/-- JavaScript truthiness of the `sessionId` query parameter: both an absent
parameter and an empty string are falsy. -/
def falsyId : Option (List Char) → Bool
  | none => true
  | some s => s.isEmpty

/-- Lines 73–166, from the emptiness check on the extracted text onward: on
non-empty text the SSE headers and the `connected` event are written, the
fragment stream is folded through the extraction loop, and the stream ends
with `complete` followed by session deletion (normal termination) or with a
terminal `error` event (raised termination).  The final `try` block (lines
155–166) performs only the `complete` write and the deletion, neither of
which can throw, so its guarded `error` branch contributes nothing. -/
def afterExtraction (gen : GenOutcome) (sid : List Char) (text : List Char) :
    List ResAction :=
  if jsTrim text = [] then [.statusJson 400 emptyTextMsg]
  else
    .sseHead :: .event .connected ::
      ((runExtractor gen.chunks).flashcards.map fcEvent ++
        match gen.term with
        | .ok => [.event .complete, .removeAct sid, .endResponse]
        | .raised e => catchTrace e)

/-- `generateFlashcards` (lines 44–185).  `pdfX` and `mammothX` are the two
text-extraction collaborators (their `Except` error is a thrown JS error,
which lands in the catch block at line 171); `store` is
`global.uploadedFiles`, `none` when the global was never initialised. -/
def generateFlashcards (pdfX mammothX : List Char → Except JsError (List Char))
    (gen : GenOutcome) (store : Option StoreState)
    (sessionId : Option (List Char)) : List ResAction :=
  if falsyId sessionId then [.statusJson 400 invalidSessionMsg]
  else
    match store with
    | none => [.statusJson 400 invalidSessionMsg]
    | some st =>
      let sid := sessionId.getD []
      match lookupEntry sid st.entries with
      | none => [.statusJson 400 invalidSessionMsg]
      | some fileData =>
        if fileData.mimetype = pdfMime then
          match pdfX fileData.buffer with
          | .error e => catchTrace e
          | .ok text => afterExtraction gen sid text
        else if fileData.mimetype = docxMime then
          match mammothX fileData.buffer with
          | .error e => catchTrace e
          | .ok text => afterExtraction gen sid text
        else [.statusJson 400 unsupportedMsg]

/-! ## Trace observables and concrete fixtures -/

/-- Is an action the `delete global.uploadedFiles[sessionId]` store
retirement? -/
def isRemoveAct : ResAction → Bool
  | .removeAct _ => true
  | _ => false

/-- Is an action the write of an `error` stream event? -/
def isErrorEvent : ResAction → Bool
  | .event (.error _) => true
  | _ => false

/-- Is an action an HTTP status response (`res.status(..).send(..)`)? -/
def isStatusAct : ResAction → Bool
  | .statusJson _ _ => true
  | _ => false

def countRemove (tr : List ResAction) : Nat := tr.countP (fun a => isRemoveAct a)

def countErrorEvents (tr : List ResAction) : Nat := tr.countP (fun a => isErrorEvent a)

def countStatus (tr : List ResAction) : Nat := tr.countP (fun a => isStatusAct a)

/-- The trace shape of the claim that an error surfaces as an HTTP error
status with a JSON body (and nothing else is written). -/
def SurfacesAsHttpError (tr : List ResAction) : Prop :=
  ∃ c m, tr = [ResAction.statusJson c m] ∧ 400 ≤ c

/-- The spec sentence `remove(id) … cancels its pending eviction`, read on
the store model: after retirement no eviction timer for the id is pending. -/
def removeCancelsEviction : Prop :=
  ∀ id st, ∀ t ∈ (removeSession id st).timers, t.1 ≠ id

/-- A well-formed flashcard object, `{"question":"q","answer":"a"}`. -/
def frag1 : List Char :=
  "\x7b\x22question\x22:\x22q\x22,\x22answer\x22:\x22a\x22\x7d".data

/-- A lone separator fragment. -/
def frag2 : List Char := ",".data

/-- A syntactically well-formed object whose `question` field is empty,
followed by a separator and then `frag1`, all in one fragment. -/
def fragEmptyQ : List Char :=
  "\x7b\x22question\x22:\x22\x22,\x22answer\x22:\x22x\x22\x7d".data ++
    [','] ++ frag1

def fileA : FileData := ⟨"A".data, pdfMime, "a.pdf".data⟩

def fileB : FileData := ⟨"B".data, pdfMime, "b.pdf".data⟩

/-- `Date.now().toString()` for a clock reading of 1000 ms. -/
def sid1000 : List Char := (Nat.repr 1000).data

/-- A store holding one pdf session `sid1000` with its eviction pending. -/
def store1 : StoreState :=
  ⟨[(sid1000, fileA)], [(sid1000, 1000 + sessionTTL)]⟩

def pdfOkX : List Char → Except JsError (List Char) := fun _ => .ok "text".data

def pdfFailX : List Char → Except JsError (List Char) :=
  fun _ => .error ⟨false, "boom".data⟩

def mamOkX : List Char → Except JsError (List Char) := fun _ => .ok "text".data

/-! ## Helper lemmas -/

theorem foldl_preserves {α β : Type} (P : α → Prop) (f : α → β → α)
    (h : ∀ s b, P s → P (f s b)) :
    ∀ (l : List β) (s : α), P s → P (l.foldl f s) := by
  intro l
  induction l with
  | nil => intro s hs; simpa using hs
  | cons b t ih => intro s hs; simpa using ih (f s b) (h s b hs)

/-- Emission invariant of the loop body: only records with two non-empty
fields are ever appended to the collection. -/
theorem processMatch_nonempty (st : ExtState) (m : MatchRec)
    (h : ∀ r ∈ st.flashcards, r.1 ≠ [] ∧ r.2 ≠ []) :
    ∀ r ∈ (processMatch st m).flashcards, r.1 ≠ [] ∧ r.2 ≠ [] := by
  unfold processMatch
  cases hparse : jparseFlashcard m.span with
  | none => simpa using h
  | some p =>
    obtain ⟨q, a⟩ := p
    by_cases hv : (!q.isEmpty && !a.isEmpty) = true
    · simp only [hv, if_true]
      intro r hr
      rcases List.mem_append.1 hr with h1 | h2
      · exact h r h1
      · have hr2 : r = (q, a) := by simpa using h2
        subst hr2
        have hv' := hv
        rw [Bool.and_eq_true] at hv'
        obtain ⟨h1, h2⟩ := hv'
        constructor
        · cases q with
          | nil => simp at h1
          | cons c t => simp
        · cases a with
          | nil => simp at h2
          | cons c t => simp
    · simp only [hv, if_false]
      simpa using h

theorem processChunk_nonempty (st : ExtState) (chunk : List Char)
    (h : ∀ r ∈ st.flashcards, r.1 ≠ [] ∧ r.2 ≠ []) :
    ∀ r ∈ (processChunk st chunk).flashcards, r.1 ≠ [] ∧ r.2 ≠ [] := by
  unfold processChunk
  by_cases hc : chunk = []
  · simpa [hc] using h
  · simp only [hc, if_false]
    exact foldl_preserves (fun s => ∀ r ∈ s.flashcards, r.1 ≠ [] ∧ r.2 ≠ [])
      processMatch processMatch_nonempty
      (matchAll ((st.completeResponse ++ chunk).drop st.lastProcessedLength))
      { st with completeResponse := st.completeResponse ++ chunk }
      (by simpa using h)

/-- Every record the extraction loop ever emits has two non-empty fields. -/
theorem runExtractor_nonempty (chunks : List (List Char)) :
    ∀ r ∈ (runExtractor chunks).flashcards, r.1 ≠ [] ∧ r.2 ≠ [] := by
  unfold runExtractor
  exact foldl_preserves (fun s => ∀ r ∈ s.flashcards, r.1 ≠ [] ∧ r.2 ≠ [])
    processChunk processChunk_nonempty chunks initExtState (by simp [initExtState])

theorem countRemove_nil : countRemove [] = 0 := rfl

theorem countRemove_cons (a : ResAction) (tr : List ResAction) :
    countRemove (a :: tr) = (if isRemoveAct a then 1 else 0) + countRemove tr := by
  simp [countRemove, List.countP_cons]
  cases a <;> simp [isRemoveAct, Nat.add_comm]

theorem countRemove_append (tr tr' : List ResAction) :
    countRemove (tr ++ tr') = countRemove tr + countRemove tr' := by
  simp [countRemove, List.countP_append]

theorem countRemove_fcmap (l : List (List Char × List Char)) :
    countRemove (l.map fcEvent) = 0 := by
  induction l with
  | nil => rfl
  | cons r t ih => simp [countRemove_cons, fcEvent, isRemoveAct, ih]

theorem countErrorEvents_cons (a : ResAction) (tr : List ResAction) :
    countErrorEvents (a :: tr) =
      (if isErrorEvent a then 1 else 0) + countErrorEvents tr := by
  simp [countErrorEvents, List.countP_cons]
  cases a <;> simp [isErrorEvent, Nat.add_comm]

theorem countErrorEvents_append (tr tr' : List ResAction) :
    countErrorEvents (tr ++ tr') = countErrorEvents tr + countErrorEvents tr' := by
  simp [countErrorEvents, List.countP_append]

theorem countErrorEvents_fcmap (l : List (List Char × List Char)) :
    countErrorEvents (l.map fcEvent) = 0 := by
  induction l with
  | nil => rfl
  | cons r t ih => simp [countErrorEvents_cons, fcEvent, isErrorEvent, ih]

theorem countStatus_cons (a : ResAction) (tr : List ResAction) :
    countStatus (a :: tr) = (if isStatusAct a then 1 else 0) + countStatus tr := by
  simp [countStatus, List.countP_cons]
  cases a <;> simp [isStatusAct, Nat.add_comm]

theorem countStatus_append (tr tr' : List ResAction) :
    countStatus (tr ++ tr') = countStatus tr + countStatus tr' := by
  simp [countStatus, List.countP_append]

theorem countStatus_fcmap (l : List (List Char × List Char)) :
    countStatus (l.map fcEvent) = 0 := by
  induction l with
  | nil => rfl
  | cons r t ih => simp [countStatus_cons, fcEvent, isStatusAct, ih]

/-- No event produced by the record emission loop is the `complete` event. -/
theorem complete_notmem_fcmap (l : List (List Char × List Char)) :
    ResAction.event .complete ∉ l.map fcEvent := by
  intro h
  rcases List.mem_map.1 h with ⟨r, _, hr⟩
  simp [fcEvent] at hr

/-- No event produced by the record emission loop is an `error` event. -/
theorem errorEvent_notmem_fcmap (l : List (List Char × List Char)) (m : List Char) :
    ResAction.event (.error m) ∉ l.map fcEvent := by
  intro h
  rcases List.mem_map.1 h with ⟨r, _, hr⟩
  simp [fcEvent] at hr

theorem sseHead_notmem_fcmap (l : List (List Char × List Char)) :
    ResAction.sseHead ∉ l.map fcEvent := by
  intro h
  rcases List.mem_map.1 h with ⟨r, _, hr⟩
  simp [fcEvent] at hr

/-- Neither catch-block message is the dead invalid-JSON message of the
final-processing block. -/
theorem catchMsg_ne_invalidJson (e : JsError) : catchMsg e ≠ invalidJsonMsg := by
  unfold catchMsg
  cases e.hasPromptFeedback <;> simp <;> decide

/-! ### Store lemmas -/

theorem lookup_erase (id : List Char) (l : List (List Char × FileData)) :
    lookupEntry id (eraseEntry id l) = none := by
  induction l with
  | nil => rfl
  | cons e t ih =>
    by_cases h : e.1 = id
    · simpa [eraseEntry, h] using ih
    · simpa [eraseEntry, lookupEntry, h] using ih

theorem erase_of_lookup_none (id : List Char) (l : List (List Char × FileData))
    (h : lookupEntry id l = none) : eraseEntry id l = l := by
  induction l with
  | nil => rfl
  | cons e t ih =>
    obtain ⟨k, v⟩ := e
    by_cases hk : k = id
    · rw [lookupEntry, if_pos hk] at h
      exact absurd h (by simp)
    · rw [lookupEntry, if_neg hk] at h
      have ht := ih h
      unfold eraseEntry at ht ⊢
      simp [List.filter_cons, hk, ht]

/-! ### Handler path lemmas -/

/-- A request with no `sessionId` query parameter is rejected at once. -/
theorem gf_missing_param (pX mX : List Char → Except JsError (List Char))
    (gen : GenOutcome) (store : Option StoreState) :
    generateFlashcards pX mX gen store none = [.statusJson 400 invalidSessionMsg] := rfl

/-- A request made before any upload initialised the store is rejected with
the same response. -/
theorem gf_store_uninit (pX mX : List Char → Except JsError (List Char))
    (gen : GenOutcome) (sid : List Char) :
    generateFlashcards pX mX gen none (some sid) = [.statusJson 400 invalidSessionMsg] := by
  unfold generateFlashcards
  cases h : falsyId (some sid) <;> simp [h]

/-- A lookup miss on a live store is rejected with the same response. -/
theorem gf_unknown_id (pX mX : List Char → Except JsError (List Char))
    (gen : GenOutcome) (st : StoreState) (sid : List Char)
    (h1 : sid.isEmpty = false) (h2 : lookupEntry sid st.entries = none) :
    generateFlashcards pX mX gen (some st) (some sid) =
      [.statusJson 400 invalidSessionMsg] := by
  unfold generateFlashcards
  have hf : falsyId (some sid) = false := h1
  simp [hf, h2]

/-- On a session hit the handler proceeds to the format dispatch. -/
theorem gf_found (pX mX : List Char → Except JsError (List Char))
    (gen : GenOutcome) (st : StoreState) (sid : List Char) (fd : FileData)
    (h1 : sid.isEmpty = false) (h2 : lookupEntry sid st.entries = some fd) :
    generateFlashcards pX mX gen (some st) (some sid) =
      (if fd.mimetype = pdfMime then
        match pX fd.buffer with
        | .error e => catchTrace e
        | .ok text => afterExtraction gen sid text
      else if fd.mimetype = docxMime then
        match mX fd.buffer with
        | .error e => catchTrace e
        | .ok text => afterExtraction gen sid text
      else [.statusJson 400 unsupportedMsg]) := by
  unfold generateFlashcards
  have hf : falsyId (some sid) = false := h1
  simp [hf, h2]

theorem afterExtraction_empty (gen : GenOutcome) (sid text : List Char)
    (h : jsTrim text = []) :
    afterExtraction gen sid text = [.statusJson 400 emptyTextMsg] := by
  unfold afterExtraction
  simp [h]

theorem afterExtraction_stream (gen : GenOutcome) (sid text : List Char)
    (h : jsTrim text ≠ []) :
    afterExtraction gen sid text =
      .sseHead :: .event .connected ::
        ((runExtractor gen.chunks).flashcards.map fcEvent ++
          match gen.term with
          | GenTerm.ok => [.event .complete, .removeAct sid, .endResponse]
          | GenTerm.raised e => catchTrace e) := by
  unfold afterExtraction
  simp [h]

/-- Every trace of the handler has one of five shapes: an immediate
400 rejection (invalid session, unsupported type, or empty text), a bare
catch-block trace (a collaborator threw before the stream was opened), or an
opened stream that ends in the `complete`/retire tail or in the catch-block
tail. -/
theorem generateFlashcards_shape (pX mX : List Char → Except JsError (List Char))
    (gen : GenOutcome) (store : Option StoreState) (sid : Option (List Char)) :
    generateFlashcards pX mX gen store sid = [.statusJson 400 invalidSessionMsg] ∨
    generateFlashcards pX mX gen store sid = [.statusJson 400 unsupportedMsg] ∨
    generateFlashcards pX mX gen store sid = [.statusJson 400 emptyTextMsg] ∨
    (∃ e, generateFlashcards pX mX gen store sid = catchTrace e) ∨
    (∃ s, generateFlashcards pX mX gen store sid =
      .sseHead :: .event .connected ::
        ((runExtractor gen.chunks).flashcards.map fcEvent ++
          match gen.term with
          | GenTerm.ok => [.event .complete, .removeAct s, .endResponse]
          | GenTerm.raised e => catchTrace e)) := by
  cases sid with
  | none => exact Or.inl (gf_missing_param pX mX gen store)
  | some s =>
    cases hs : s.isEmpty with
    | true =>
      left
      unfold generateFlashcards
      have hf : falsyId (some s) = true := hs
      simp [hf]
    | false =>
      cases store with
      | none => exact Or.inl (gf_store_uninit pX mX gen s)
      | some st =>
        cases hl : lookupEntry s st.entries with
        | none => exact Or.inl (gf_unknown_id pX mX gen st s hs hl)
        | some fd =>
          rw [gf_found pX mX gen st s fd hs hl]
          by_cases hpdf : fd.mimetype = pdfMime
          · rw [if_pos hpdf]
            cases hx : pX fd.buffer with
            | error e => exact Or.inr (Or.inr (Or.inr (Or.inl ⟨e, rfl⟩)))
            | ok text =>
              by_cases htr : jsTrim text = []
              · exact Or.inr (Or.inr (Or.inl (afterExtraction_empty gen s text htr)))
              · exact Or.inr (Or.inr (Or.inr (Or.inr
                  ⟨s, afterExtraction_stream gen s text htr⟩)))
          · rw [if_neg hpdf]
            by_cases hdocx : fd.mimetype = docxMime
            · rw [if_pos hdocx]
              cases hx : mX fd.buffer with
              | error e => exact Or.inr (Or.inr (Or.inr (Or.inl ⟨e, rfl⟩)))
              | ok text =>
                by_cases htr : jsTrim text = []
                · exact Or.inr (Or.inr (Or.inl (afterExtraction_empty gen s text htr)))
                · exact Or.inr (Or.inr (Or.inr (Or.inr
                    ⟨s, afterExtraction_stream gen s text htr⟩)))
            · rw [if_neg hdocx]
              exact Or.inr (Or.inl rfl)

/-! ## Claim theorems -/

/-- Claim C1: the spec promises that a concatenation containing exactly N
well-formed non-empty records yields exactly N flashcard events, each record
once.  The code violates this: `lastProcessedLength` is never advanced and a
matched span is scrubbed from the buffer only when a comma already follows
it, so the single object delivered in `frag1` — whose separator arrives only
in the next fragment — is matched again on the next scan and emitted twice:
one well-formed record, two flashcard events. -/
theorem C1_single_record_emitted_twice :
    (validRecords (frag1 ++ frag2)).length = 1 ∧
    (runExtractor [frag1, frag2]).flashcards =
      [("q".data, "a".data), ("q".data, "a".data)] := by
  constructor
  · decide
  · decide

/-- Claim C2: the spec says a processed span is marked consumed and never
matched again.  In the code the only consumption mechanism is
`replaceAll(span + ',', '')`, which does nothing when the separator has not
arrived yet: after processing `frag1` alone the span is still in the buffer,
and the scan triggered by the lone separator fragment matches the very same
span again. -/
theorem C2_processed_span_matched_again :
    (runExtractor [frag1]).flashcards = [("q".data, "a".data)] ∧
    (runExtractor [frag1]).completeResponse = frag1 ∧
    (runExtractor [frag1, frag2]).flashcards =
      [("q".data, "a".data), ("q".data, "a".data)] := by
  refine ⟨by decide, by decide, by decide⟩

/-- Claim C3: the spec promises that every accepted upload receives a fresh
session id, unique among live sessions, with distinct concurrent uploads
retrieving their own payloads.  The id is `Date.now().toString()`, so two
uploads within the same millisecond receive the same id and the second
payload silently overwrites the first. -/
theorem C3_sessionId_collision_same_millisecond :
    (uploadDocument 1000 (some fileA) emptyStore).1 = UploadResult.ok sid1000 ∧
    (uploadDocument 1000 (some fileB)
        (uploadDocument 1000 (some fileA) emptyStore).2).1 = UploadResult.ok sid1000 ∧
    lookupEntry sid1000
        (uploadDocument 1000 (some fileB)
          (uploadDocument 1000 (some fileA) emptyStore).2).2.entries = some fileB ∧
    fileA ≠ fileB := by
  refine ⟨by decide, by decide, by decide, by decide⟩

/-- Claim C5, counterexample: the claim says `remove` cancels the pending
eviction.  Retirement is a bare property deletion with no `clearTimeout`, so
after removing the session stored by an upload at time 1000 its eviction
timer is still pending. -/
theorem C5_counterexample : ¬ removeCancelsEviction := by
  intro h
  exact absurd rfl
    (h sid1000 store1 (sid1000, 1000 + sessionTTL) (by decide))

/-- Claim C5, amended: removal deletes the entry if present and is
idempotent (removing an absent id is a no-op), but it does NOT cancel the
pending eviction; instead, when the eviction fires it deletes the entry only
if still present, so a timer firing after a completed removal leaves the
entries unchanged. -/
theorem C5_remove_eviction_semantics :
    ∀ (st : StoreState) (id : List Char) (ft : Nat),
      lookupEntry id (removeSession id st).entries = none ∧
      (removeSession id st).timers = st.timers ∧
      removeSession id (removeSession id st) = removeSession id st ∧
      (lookupEntry id st.entries = none → removeSession id st = st) ∧
      (lookupEntry id st.entries = none →
        (fireEviction id ft st).entries = st.entries) := by
  intro st id ft
  refine ⟨lookup_erase id st.entries, rfl, ?_, ?_, ?_⟩
  · unfold removeSession
    simp [erase_of_lookup_none id _ (lookup_erase id st.entries)]
  · intro h
    cases st with
    | mk entries timers => simp [removeSession, erase_of_lookup_none id entries h]
  · intro h
    unfold fireEviction
    simp [h]

/-- Witness for the amended C5 theorem at a concrete store and id. -/
theorem C5_witness :
    lookupEntry "zz".data store1.entries = none ∧
    removeSession "zz".data store1 = store1 ∧
    (fireEviction "zz".data 7 store1).entries = store1.entries := by
  have h := C5_remove_eviction_semantics store1 "zz".data 7
  exact ⟨by decide, h.2.2.2.1 (by decide), h.2.2.2.2 (by decide)⟩

/-- Claim C7: a candidate whose question or answer parses to the empty
string is never emitted — every record the extractor ever emits has two
non-empty fields — and a failing candidate is discarded silently: the
fragment `fragEmptyQ`, which contains an empty-question object followed by a
well-formed one, yields exactly the well-formed record. -/
theorem C7_no_empty_fields_emitted :
    (∀ (chunks : List (List Char)) (r : List Char × List Char),
        r ∈ (runExtractor chunks).flashcards → r.1 ≠ [] ∧ r.2 ≠ []) ∧
    (runExtractor [fragEmptyQ]).flashcards = [("q".data, "a".data)] :=
  ⟨fun chunks r hr => runExtractor_nonempty chunks r hr, by decide⟩

/-- Witness for C7 at a concrete run: the record emitted for `frag1` is in
the output and the theorem yields its non-emptiness. -/
theorem C7_witness :
    ("q".data, "a".data) ∈ (runExtractor [frag1]).flashcards ∧
    ("q".data ≠ [] ∧ "a".data ≠ []) :=
  ⟨by decide, C7_no_empty_fields_emitted.1 [frag1] ("q".data, "a".data) (by decide)⟩

/-- Claim C8: extraction is deterministic in its input — the extraction
state, and in particular the emitted record sequence, is a function of the
fragment sequence alone, each run starting from the per-request initial
cursor, so two runs over equal fragment sequences agree exactly. -/
theorem C8_extraction_deterministic :
    ∀ chunks1 chunks2 : List (List Char), chunks1 = chunks2 →
      runExtractor chunks1 = runExtractor chunks2 ∧
      (runExtractor chunks1).flashcards = (runExtractor chunks2).flashcards := by
  intro c1 c2 h
  subst h
  exact ⟨rfl, rfl⟩

/-- Witness for C8 on a concrete re-run. -/
theorem C8_witness :
    runExtractor [frag1, frag2] = runExtractor [frag1, frag2] ∧
    (runExtractor [frag1, frag2]).flashcards =
      (runExtractor [frag1, frag2]).flashcards :=
  C8_extraction_deterministic [frag1, frag2] [frag1, frag2] rfl

theorem countErrorEvents_nil : countErrorEvents [] = 0 := rfl

theorem countStatus_nil : countStatus [] = 0 := rfl

/-- Claim C4: the session is removed from the store exactly once per
request and only directly after the `complete` event — every trace that
contains `complete` ends with the `complete`/retire/end tail and performs no
removal earlier, and every trace without `complete` (terminal `error`, or
any pre-stream rejection) performs no removal at all, leaving the session to
its TTL eviction. -/
theorem C4_session_removed_once_after_complete :
    ∀ (pX mX : List Char → Except JsError (List Char)) (gen : GenOutcome)
      (store : Option StoreState) (sid : Option (List Char)) (tr : List ResAction),
      tr = generateFlashcards pX mX gen store sid →
      ((ResAction.event .complete ∈ tr →
          ∃ p s, tr = p ++ [ResAction.event .complete, ResAction.removeAct s,
            ResAction.endResponse] ∧ countRemove p = 0) ∧
        (ResAction.event .complete ∉ tr → countRemove tr = 0)) := by
  intro pX mX gen store sid tr htr
  subst htr
  rcases generateFlashcards_shape pX mX gen store sid with h | h | h | ⟨e, h⟩ | ⟨s, h⟩
  · rw [h]
    constructor
    · intro hc; simp at hc
    · intro _; simp [countRemove_cons, countRemove_nil, isRemoveAct]
  · rw [h]
    constructor
    · intro hc; simp at hc
    · intro _; simp [countRemove_cons, countRemove_nil, isRemoveAct]
  · rw [h]
    constructor
    · intro hc; simp at hc
    · intro _; simp [countRemove_cons, countRemove_nil, isRemoveAct]
  · rw [h]
    constructor
    · intro hc; simp [catchTrace] at hc
    · intro _; simp [catchTrace, countRemove_cons, countRemove_nil, isRemoveAct]
  · rw [h]
    cases hterm : gen.term with
    | ok =>
      constructor
      · intro _
        refine ⟨ResAction.sseHead :: ResAction.event .connected ::
          (runExtractor gen.chunks).flashcards.map fcEvent, s, by simp, ?_⟩
        simp [countRemove_cons, isRemoveAct, countRemove_fcmap]
      · intro hnc
        exact absurd (by simp : ResAction.event .complete ∈ _) hnc
    | raised e =>
      constructor
      · intro hc
        exfalso
        simp only [List.mem_cons, List.mem_append, catchTrace,
          List.mem_singleton] at hc
        rcases hc with hc | hc | hc | hc | hc
        · simp at hc
        · simp at hc
        · exact complete_notmem_fcmap _ hc
        · simp at hc
        · simp at hc
      · intro _
        simp [countRemove_cons, countRemove_append, countRemove_fcmap,
          catchTrace, countRemove_nil, isRemoveAct]

/-- Witness for C4 at a concrete successful request. -/
theorem C4_witness :
    ∃ p s, generateFlashcards pdfOkX mamOkX ⟨[frag1], GenTerm.ok⟩
        (some store1) (some sid1000) =
      p ++ [ResAction.event .complete, ResAction.removeAct s,
        ResAction.endResponse] ∧ countRemove p = 0 :=
  (C4_session_removed_once_after_complete pdfOkX mamOkX ⟨[frag1], GenTerm.ok⟩
    (some store1) (some sid1000) _ rfl).1 (by decide)

/-- Claim C9: when the fragment stream terminates normally the `complete`
event is emitted unconditionally — for arbitrary (possibly non-JSON)
accumulated fragments the opened stream carries no `error` event at all —
and the invalid-JSON error message of the guarded final block is never
written on any path, because that block only writes an event and deletes the
session and never parses the accumulated text. -/
theorem C9_complete_unconditional :
    ∀ (pX mX : List Char → Except JsError (List Char)) (chunks : List (List Char))
      (store : Option StoreState) (sid : Option (List Char)) (tr : List ResAction),
      tr = generateFlashcards pX mX ⟨chunks, GenTerm.ok⟩ store sid →
      ((ResAction.sseHead ∈ tr →
          ResAction.event .complete ∈ tr ∧ countErrorEvents tr = 0) ∧
        ResAction.event (.error invalidJsonMsg) ∉ tr) := by
  intro pX mX chunks store sid tr htr
  subst htr
  rcases generateFlashcards_shape pX mX ⟨chunks, GenTerm.ok⟩ store sid with
    h | h | h | ⟨e, h⟩ | ⟨s, h⟩
  · rw [h]
    exact ⟨fun hc => by simp at hc, by simp⟩
  · rw [h]
    exact ⟨fun hc => by simp at hc, by simp⟩
  · rw [h]
    exact ⟨fun hc => by simp at hc, by simp⟩
  · rw [h]
    constructor
    · intro hc; simp [catchTrace] at hc
    · intro hc
      simp only [catchTrace, List.mem_cons, List.mem_singleton] at hc
      rcases hc with hc | hc | hc
      · exact catchMsg_ne_invalidJson e (by
          have := hc
          simp at this
          exact this.symm)
      · simp at hc
      · simp at hc
  · rw [h]
    constructor
    · intro _
      constructor
      · simp
      · simp [countErrorEvents_cons, countErrorEvents_append,
          countErrorEvents_fcmap, countErrorEvents_nil, isErrorEvent]
    · intro hc
      simp only [List.mem_cons, List.mem_append, List.mem_singleton] at hc
      rcases hc with hc | hc | hc | hc | hc | hc
      · simp at hc
      · simp at hc
      · exact errorEvent_notmem_fcmap _ invalidJsonMsg hc
      · simp at hc
      · simp at hc
      · simp at hc

/-- Witness for C9 at a concrete request whose fragments are not valid
JSON as a whole. -/
theorem C9_witness :
    ResAction.event .complete ∈
      generateFlashcards pdfOkX mamOkX ⟨["not json".data], GenTerm.ok⟩
        (some store1) (some sid1000) ∧
    countErrorEvents (generateFlashcards pdfOkX mamOkX
      ⟨["not json".data], GenTerm.ok⟩ (some store1) (some sid1000)) = 0 :=
  (C9_complete_unconditional pdfOkX mamOkX ["not json".data] (some store1)
    (some sid1000) _ rfl).1 (by decide)

/-- Claim C10: a generation request with no `sessionId` parameter, or one
made while the upload store was never initialised, receives exactly the same
HTTP 400 response with message `Invalid or expired session ID.` as a lookup
miss of an unknown or expired id — the cases are indistinguishable at the
public interface. -/
theorem C10_missing_param_indistinguishable :
    (∀ (pX mX : List Char → Except JsError (List Char)) (gen : GenOutcome)
        (store : Option StoreState),
      generateFlashcards pX mX gen store none =
        [.statusJson 400 invalidSessionMsg]) ∧
    (∀ (pX mX : List Char → Except JsError (List Char)) (gen : GenOutcome)
        (sid : List Char),
      generateFlashcards pX mX gen none (some sid) =
        [.statusJson 400 invalidSessionMsg]) ∧
    (∀ (pX mX : List Char → Except JsError (List Char)) (gen : GenOutcome)
        (st : StoreState) (sid : List Char),
      sid.isEmpty = false → lookupEntry sid st.entries = none →
      generateFlashcards pX mX gen (some st) (some sid) =
        [.statusJson 400 invalidSessionMsg]) :=
  ⟨gf_missing_param, gf_store_uninit, gf_unknown_id⟩

/-- Witness for C10: the missing-parameter case and an unknown id produce
the same concrete response. -/
theorem C10_witness :
    generateFlashcards pdfOkX mamOkX ⟨[frag1], GenTerm.ok⟩ (some store1) none =
      [ResAction.statusJson 400 invalidSessionMsg] ∧
    generateFlashcards pdfOkX mamOkX ⟨[frag1], GenTerm.ok⟩ (some store1)
        (some "zz".data) = [ResAction.statusJson 400 invalidSessionMsg] :=
  ⟨C10_missing_param_indistinguishable.1 pdfOkX mamOkX ⟨[frag1], GenTerm.ok⟩
      (some store1),
    C10_missing_param_indistinguishable.2.2 pdfOkX mamOkX ⟨[frag1], GenTerm.ok⟩
      store1 "zz".data (by decide) (by decide)⟩

/-- Claim C6, counterexample: the claim says every pre-stream error —
including any text-extraction failure — surfaces as an HTTP error status
with a JSON error body.  A pdf extractor that throws lands in the shared
catch block, which writes a terminal `error` event and ends the response
without ever setting an HTTP error status. -/
theorem C6_counterexample :
    generateFlashcards pdfFailX mamOkX ⟨[frag1], GenTerm.ok⟩ (some store1)
        (some sid1000) =
      [ResAction.event (.error failedGenerateMsg), ResAction.endResponse] ∧
    ¬ SurfacesAsHttpError (generateFlashcards pdfFailX mamOkX
        ⟨[frag1], GenTerm.ok⟩ (some store1) (some sid1000)) := by
  have h1 : generateFlashcards pdfFailX mamOkX ⟨[frag1], GenTerm.ok⟩
      (some store1) (some sid1000) =
      [ResAction.event (.error failedGenerateMsg), ResAction.endResponse] := by
    decide
  refine ⟨h1, ?_⟩
  intro hs
  rcases hs with ⟨c, m, heq, _⟩
  rw [h1] at heq
  simp at heq

/-- Claim C6, amended: unknown/expired/missing session ids, unsupported
formats, and empty extracted text are rejected before the stream with an
HTTP 400 JSON body, and the session check fails fast before any collaborator
call; but a THROWN text-extraction failure is instead handled by the shared
catch block, which writes a terminal `error` event with no SSE headers and
no HTTP error status; once the stream is open, a generation failure is
converted to exactly one terminal `error` event with no HTTP status change. -/
theorem C6_error_propagation :
    (∀ (pX mX : List Char → Except JsError (List Char)) (gen : GenOutcome)
        (store : Option StoreState),
      generateFlashcards pX mX gen store none =
        [.statusJson 400 invalidSessionMsg]) ∧
    (∀ (pX mX : List Char → Except JsError (List Char)) (gen : GenOutcome)
        (sid : List Char),
      generateFlashcards pX mX gen none (some sid) =
        [.statusJson 400 invalidSessionMsg]) ∧
    (∀ (pX mX : List Char → Except JsError (List Char)) (gen : GenOutcome)
        (st : StoreState) (sid : List Char),
      sid.isEmpty = false → lookupEntry sid st.entries = none →
      generateFlashcards pX mX gen (some st) (some sid) =
        [.statusJson 400 invalidSessionMsg]) ∧
    (∀ (pX mX : List Char → Except JsError (List Char)) (gen : GenOutcome)
        (st : StoreState) (sid : List Char) (fd : FileData),
      sid.isEmpty = false → lookupEntry sid st.entries = some fd →
      fd.mimetype ≠ pdfMime → fd.mimetype ≠ docxMime →
      generateFlashcards pX mX gen (some st) (some sid) =
        [.statusJson 400 unsupportedMsg]) ∧
    (∀ (pX mX : List Char → Except JsError (List Char)) (gen : GenOutcome)
        (st : StoreState) (sid : List Char) (fd : FileData) (text : List Char),
      sid.isEmpty = false → lookupEntry sid st.entries = some fd →
      fd.mimetype = pdfMime → pX fd.buffer = .ok text → jsTrim text = [] →
      generateFlashcards pX mX gen (some st) (some sid) =
        [.statusJson 400 emptyTextMsg]) ∧
    (∀ (pX mX : List Char → Except JsError (List Char)) (gen : GenOutcome)
        (st : StoreState) (sid : List Char) (fd : FileData) (e : JsError),
      sid.isEmpty = false → lookupEntry sid st.entries = some fd →
      fd.mimetype = pdfMime → pX fd.buffer = .error e →
      generateFlashcards pX mX gen (some st) (some sid) = catchTrace e ∧
      countStatus (catchTrace e) = 0 ∧ ResAction.sseHead ∉ catchTrace e) ∧
    (∀ (pX mX : List Char → Except JsError (List Char)) (gen : GenOutcome)
        (st : StoreState) (sid : List Char) (fd : FileData) (e : JsError),
      sid.isEmpty = false → lookupEntry sid st.entries = some fd →
      fd.mimetype ≠ pdfMime → fd.mimetype = docxMime → mX fd.buffer = .error e →
      generateFlashcards pX mX gen (some st) (some sid) = catchTrace e ∧
      countStatus (catchTrace e) = 0 ∧ ResAction.sseHead ∉ catchTrace e) ∧
    (∀ (pX mX : List Char → Except JsError (List Char))
        (chunks : List (List Char)) (e : JsError) (st : StoreState)
        (sid : List Char) (fd : FileData) (text : List Char),
      sid.isEmpty = false → lookupEntry sid st.entries = some fd →
      fd.mimetype = pdfMime → pX fd.buffer = .ok text → jsTrim text ≠ [] →
      generateFlashcards pX mX ⟨chunks, GenTerm.raised e⟩ (some st) (some sid) =
        .sseHead :: .event .connected ::
          ((runExtractor chunks).flashcards.map fcEvent ++ catchTrace e) ∧
      countErrorEvents (generateFlashcards pX mX ⟨chunks, GenTerm.raised e⟩
        (some st) (some sid)) = 1 ∧
      countStatus (generateFlashcards pX mX ⟨chunks, GenTerm.raised e⟩
        (some st) (some sid)) = 0) := by
  refine ⟨gf_missing_param, gf_store_uninit, gf_unknown_id, ?_, ?_, ?_, ?_, ?_⟩
  · intro pX mX gen st sid fd h1 h2 hpdf hdocx
    rw [gf_found pX mX gen st sid fd h1 h2, if_neg hpdf, if_neg hdocx]
  · intro pX mX gen st sid fd text h1 h2 hpdf hx htr
    rw [gf_found pX mX gen st sid fd h1 h2, if_pos hpdf, hx]
    exact afterExtraction_empty gen sid text htr
  · intro pX mX gen st sid fd e h1 h2 hpdf hx
    rw [gf_found pX mX gen st sid fd h1 h2, if_pos hpdf, hx]
    refine ⟨rfl, ?_, ?_⟩
    · simp [catchTrace, countStatus_cons, countStatus_nil, isStatusAct]
    · simp [catchTrace]
  · intro pX mX gen st sid fd e h1 h2 hpdf hdocx hx
    rw [gf_found pX mX gen st sid fd h1 h2, if_neg hpdf, if_pos hdocx, hx]
    refine ⟨rfl, ?_, ?_⟩
    · simp [catchTrace, countStatus_cons, countStatus_nil, isStatusAct]
    · simp [catchTrace]
  · intro pX mX chunks e st sid fd text h1 h2 hpdf hx htr
    have hmain : generateFlashcards pX mX ⟨chunks, GenTerm.raised e⟩
        (some st) (some sid) =
        .sseHead :: .event .connected ::
          ((runExtractor chunks).flashcards.map fcEvent ++ catchTrace e) := by
      rw [gf_found pX mX ⟨chunks, GenTerm.raised e⟩ st sid fd h1 h2,
        if_pos hpdf, hx]
      exact afterExtraction_stream ⟨chunks, GenTerm.raised e⟩ sid text htr
    refine ⟨hmain, ?_, ?_⟩
    · rw [hmain]
      simp [countErrorEvents_cons, countErrorEvents_append,
        countErrorEvents_fcmap, countErrorEvents_nil, catchTrace, isErrorEvent]
    · rw [hmain]
      simp [countStatus_cons, countStatus_append, countStatus_fcmap,
        countStatus_nil, catchTrace, isStatusAct]

/-- Witness for the amended C6 theorem: a concrete thrown extraction failure
becomes a bare error-event trace, and a concrete post-open generation
failure yields exactly one terminal error event with no status change. -/
theorem C6_witness :
    (generateFlashcards pdfFailX mamOkX ⟨[frag1], GenTerm.ok⟩ (some store1)
        (some sid1000) = catchTrace ⟨false, "boom".data⟩) ∧
    countErrorEvents (generateFlashcards pdfOkX mamOkX
      ⟨[frag1], GenTerm.raised ⟨false, "x".data⟩⟩ (some store1)
      (some sid1000)) = 1 :=
  ⟨(C6_error_propagation.2.2.2.2.2.1 pdfFailX mamOkX ⟨[frag1], GenTerm.ok⟩
      store1 sid1000 fileA ⟨false, "boom".data⟩ (by decide) (by decide) rfl
      rfl).1,
    (C6_error_propagation.2.2.2.2.2.2.2 pdfOkX mamOkX [frag1]
      ⟨false, "x".data⟩ store1 sid1000 fileA "text".data (by decide)
      (by decide) rfl rfl (by decide)).2.1⟩
